import Mathlib

/-!
Shallow embedding of the BuildGo client core: the cart hook
(`useCart` in `useBuyerData`), the auth client (`authClient.ts`) and the
error classification of the API layer (`api.ts`), together with proofs of
the specified properties.
-/

namespace BuildGo

/-! ### Data model (from `services/api.ts` and the cart hook)

`ApiProduct` in the source carries many display fields; the cart logic
reads only `id`, `store` and (for totals) `price`. We keep those. -/

structure ApiProduct where
  id : Int
  store : Int
  price : String
  name : String
deriving Repr, DecidableEq

/-- `CartItem` from the cart hook: `{ product, quantity }`.
Quantities are JS numbers; the cart code only adds and compares them,
so we model them as `Int` (which in particular represents the
non-positive values nothing in the code rules out). -/
structure CartItem where
  product : ApiProduct
  quantity : Int
deriving Repr, DecidableEq

/-- Result of `addItem`: the source returns the string
`'added' | 'conflict'`. -/
inductive AddItemResult where
  | added
  | conflict
deriving Repr, DecidableEq

/-- The same-store part of `addItem`'s updater: merge by `product.id`
(summing quantities) when an entry with that id exists, otherwise append.
Mirrors the `find` / `map` / spread in the source. -/
def addSameStore (prev : List CartItem) (product : ApiProduct)
    (quantity : Int) : List CartItem :=
  if prev.any (fun item => item.product.id = product.id) then
    prev.map (fun item =>
      if item.product.id = product.id then
        { item with quantity := item.quantity + quantity }
      else item)
  else
    prev ++ [{ product := product, quantity := quantity }]

/-- `addItem(product, quantity = 1)` from `useCart`: rejects with
`conflict` when the cart is non-empty and the first item's store differs
from `product.store`, otherwise merges or appends. The source never
inspects the `quantity` argument. -/
def addItem (prev : List CartItem) (product : ApiProduct)
    (quantity : Int) : AddItemResult × List CartItem :=
  match prev.head? with
  | some first =>
      if first.product.store ≠ product.store then
        (.conflict, prev)
      else
        (.added, addSameStore prev product quantity)
  | none => (.added, addSameStore prev product quantity)

/-- `updateQuantity(productId, quantity)` from `useCart`:
`quantity ≤ 0` filters the item out, otherwise the entry's quantity is
replaced. -/
def updateQuantity (prev : List CartItem) (productId : Int)
    (quantity : Int) : List CartItem :=
  if quantity ≤ 0 then
    prev.filter (fun item => item.product.id ≠ productId)
  else
    prev.map (fun item =>
      if item.product.id = productId then { item with quantity := quantity }
      else item)

/-- `removeItem(productId)` from `useCart`. -/
def removeItem (prev : List CartItem) (productId : Int) : List CartItem :=
  prev.filter (fun item => item.product.id ≠ productId)

/-- `clearCart()` sets the items to the empty list (and erases the
persisted copy, modelled where storage matters). -/
def clearCart : List CartItem := []

/-! ### Operation sequences on the cart -/

/-- One user-visible cart mutation. -/
inductive CartOp where
  | add (product : ApiProduct) (quantity : Int)
  | update (productId : Int) (quantity : Int)
  | remove (productId : Int)
  | clear
deriving Repr, DecidableEq

/-- Apply one operation to the items list (the `addItem` result string is
not part of the state). -/
def applyOp (cart : List CartItem) : CartOp → List CartItem
  | .add product quantity => (addItem cart product quantity).2
  | .update productId quantity => updateQuantity cart productId quantity
  | .remove productId => removeItem cart productId
  | .clear => clearCart

/-- Run a sequence of operations from the empty cart. -/
def runOps (ops : List CartOp) : List CartItem :=
  ops.foldl applyOp []

/-- Invariant I1: any two items of the cart carry the same store id. -/
def SameSeller (cart : List CartItem) : Prop :=
  ∀ a ∈ cart, ∀ b ∈ cart, a.product.store = b.product.store

/-! ### Preservation lemmas for I1 -/

lemma product_addMerge (product : ApiProduct) (quantity : Int)
    (item : CartItem) :
    ((if item.product.id = product.id then
        { item with quantity := item.quantity + quantity }
      else item) : CartItem).product = item.product := by
  split <;> rfl

lemma mem_addSameStore {prev : List CartItem} {product : ApiProduct}
    {quantity : Int} {x : CartItem}
    (hx : x ∈ addSameStore prev product quantity) :
    (∃ y ∈ prev, x.product = y.product) ∨ x.product = product := by
  unfold addSameStore at hx
  split at hx
  · rcases List.mem_map.1 hx with ⟨y, hy, rfl⟩
    exact .inl ⟨y, hy, product_addMerge product quantity y⟩
  · rcases List.mem_append.1 hx with h | h
    · exact .inl ⟨x, h, rfl⟩
    · rcases List.mem_singleton.1 h with rfl
      exact .inr rfl

lemma sameSeller_addItem {cart : List CartItem} (product : ApiProduct)
    (quantity : Int) (h : SameSeller cart) :
    SameSeller (addItem cart product quantity).2 := by
  rcases hc : cart.head? with _ | first
  · have hnil : cart = [] := List.head?_eq_none_iff.1 hc
    subst hnil
    simp only [addItem, addSameStore, List.head?_nil, List.any_nil,
      List.nil_append, Bool.false_eq_true, if_false]
    intro a ha b hb
    rw [List.mem_singleton.1 ha, List.mem_singleton.1 hb]
  · simp only [addItem, hc]
    split
    · exact h
    · rename_i hstore
      have hfs : first.product.store = product.store := by
        by_contra hne
        exact hstore hne
      have hfirst : first ∈ cart := List.mem_of_mem_head? hc
      intro a ha b hb
      have key : ∀ x ∈ addSameStore cart product quantity,
          x.product.store = first.product.store := by
        intro x hx
        rcases mem_addSameStore hx with ⟨y, hy, hxy⟩ | hx'
        · rw [hxy]; exact h y hy first hfirst
        · rw [hx', ← hfs]
      rw [key a ha, key b hb]

lemma product_updateEntry (productId quantity : Int) (item : CartItem) :
    ((if item.product.id = productId then
        { item with quantity := quantity }
      else item) : CartItem).product = item.product := by
  split <;> rfl

lemma sameSeller_filter {cart : List CartItem} (p : CartItem → Bool)
    (h : SameSeller cart) : SameSeller (cart.filter p) := by
  intro a ha b hb
  exact h a (List.mem_of_mem_filter ha) b (List.mem_of_mem_filter hb)

lemma sameSeller_updateQuantity {cart : List CartItem} (productId : Int)
    (quantity : Int) (h : SameSeller cart) :
    SameSeller (updateQuantity cart productId quantity) := by
  unfold updateQuantity
  split
  · exact sameSeller_filter _ h
  · intro a ha b hb
    rcases List.mem_map.1 ha with ⟨a', ha', rfl⟩
    rcases List.mem_map.1 hb with ⟨b', hb', rfl⟩
    rw [product_updateEntry productId quantity a',
      product_updateEntry productId quantity b']
    exact h a' ha' b' hb'

lemma sameSeller_applyOp {cart : List CartItem} (op : CartOp)
    (h : SameSeller cart) : SameSeller (applyOp cart op) := by
  cases op with
  | add product quantity => exact sameSeller_addItem product quantity h
  | update productId quantity =>
      exact sameSeller_updateQuantity productId quantity h
  | remove productId => exact sameSeller_filter _ h
  | clear => intro a ha; cases ha

lemma sameSeller_foldl (ops : List CartOp) :
    ∀ cart, SameSeller cart → SameSeller (ops.foldl applyOp cart) := by
  induction ops with
  | nil => intro cart h; exact h
  | cons op rest ih =>
      intro cart h
      exact ih (applyOp cart op) (sameSeller_applyOp op h)

/-- **C1.** Starting from the empty cart, every sequence of `addItem`,
`updateQuantity`, `removeItem` and `clearCart` operations leaves a cart
in which all items carry the same store (seller) id: invariant I1 is
preserved by every cart operation. -/
theorem cart_ops_preserve_single_seller (ops : List CartOp) :
    SameSeller (runOps ops) :=
  sameSeller_foldl ops [] (fun a ha => absurd ha (List.not_mem_nil a))

/-- Witness for C1 at a concrete operation sequence. -/
theorem cart_ops_preserve_single_seller_witness :
    SameSeller (runOps
      [CartOp.add ⟨1, 7, "10", "brick"⟩ 1,
       CartOp.add ⟨2, 7, "4", "sand"⟩ 3,
       CartOp.update 1 0,
       CartOp.remove 2]) :=
  cart_ops_preserve_single_seller _

/-- **C2.** `addItem` with a product from a different store than the
first item of a non-empty cart returns `conflict` and returns the cart
list unchanged (same items, order and quantities). -/
theorem addItem_conflict_rejects (first : CartItem) (rest : List CartItem)
    (product : ApiProduct) (quantity : Int)
    (hstore : product.store ≠ first.product.store) :
    addItem (first :: rest) product quantity =
      (.conflict, first :: rest) := by
  unfold addItem
  simp only [List.head?_cons]
  rw [if_pos (fun h => hstore h.symm)]

/-- Witness for C2: product 2 from store 9 against a cart holding
product 1 from store 7. -/
theorem addItem_conflict_rejects_witness :
    addItem [⟨⟨1, 7, "10", "brick"⟩, 1⟩] ⟨2, 9, "5", "sand"⟩ 1 =
      (.conflict, [⟨⟨1, 7, "10", "brick"⟩, 1⟩]) :=
  addItem_conflict_rejects ⟨⟨1, 7, "10", "brick"⟩, 1⟩ []
    ⟨2, 9, "5", "sand"⟩ 1 (by decide)

/-! ### Quantity positivity (C6) -/

/-- All quantities in the cart are at least 1. -/
def PosQty (cart : List CartItem) : Prop :=
  ∀ item ∈ cart, 1 ≤ item.quantity

/-- An operation whose `addItem` quantity argument is positive (the other
operations carry no such argument). -/
def PosAddOp : CartOp → Prop
  | .add _ quantity => 1 ≤ quantity
  | _ => True

instance : DecidablePred PosAddOp := fun op =>
  match op with
  | .add _ quantity => inferInstanceAs (Decidable (1 ≤ quantity))
  | .update _ _ => inferInstanceAs (Decidable True)
  | .remove _ => inferInstanceAs (Decidable True)
  | .clear => inferInstanceAs (Decidable True)

lemma posQty_addSameStore {prev : List CartItem} {product : ApiProduct}
    {quantity : Int} (hq : 1 ≤ quantity) (h : PosQty prev) :
    PosQty (addSameStore prev product quantity) := by
  unfold addSameStore
  split
  · intro x hx
    rcases List.mem_map.1 hx with ⟨y, hy, rfl⟩
    have hy1 := h y hy
    by_cases hid : y.product.id = product.id
    · rw [if_pos hid]; show 1 ≤ y.quantity + quantity; omega
    · rw [if_neg hid]; exact hy1
  · intro x hx
    rcases List.mem_append.1 hx with hx' | hx'
    · exact h x hx'
    · rw [List.mem_singleton.1 hx']; exact hq

lemma posQty_addItem {cart : List CartItem} {product : ApiProduct}
    {quantity : Int} (hq : 1 ≤ quantity) (h : PosQty cart) :
    PosQty (addItem cart product quantity).2 := by
  unfold addItem
  rcases cart.head? with _ | first
  · exact posQty_addSameStore hq h
  · simp only
    split
    · exact h
    · exact posQty_addSameStore hq h

lemma posQty_updateQuantity {cart : List CartItem} (productId : Int)
    (quantity : Int) (h : PosQty cart) :
    PosQty (updateQuantity cart productId quantity) := by
  unfold updateQuantity
  split
  · intro x hx; exact h x (List.mem_of_mem_filter hx)
  · rename_i hpos
    intro x hx
    rcases List.mem_map.1 hx with ⟨y, hy, rfl⟩
    have hy1 := h y hy
    by_cases hid : y.product.id = productId
    · rw [if_pos hid]; show 1 ≤ quantity; omega
    · rw [if_neg hid]; exact hy1

lemma posQty_applyOp {cart : List CartItem} {op : CartOp}
    (hop : PosAddOp op) (h : PosQty cart) : PosQty (applyOp cart op) := by
  cases op with
  | add product quantity => exact posQty_addItem hop h
  | update productId quantity => exact posQty_updateQuantity _ _ h
  | remove productId =>
      intro x hx; exact h x (List.mem_of_mem_filter hx)
  | clear => intro x hx; cases hx

lemma posQty_foldl (ops : List CartOp) :
    ∀ cart, (∀ op ∈ ops, PosAddOp op) → PosQty cart →
      PosQty (ops.foldl applyOp cart) := by
  induction ops with
  | nil => intro cart _ h; exact h
  | cons op rest ih =>
      intro cart hops h
      exact ih (applyOp cart op)
        (fun o ho => hops o (List.mem_cons_of_mem op ho))
        (posQty_applyOp (hops op (List.mem_cons_self op rest)) h)

/-- **C6, counterexample.** The claim that no cart operation ever stores
a non-positive quantity is false: `addItem` does not validate its
`quantity` argument, so adding a product with quantity `0` to the empty
cart stores an entry with quantity `0`. -/
theorem addItem_zero_quantity_cex :
    runOps [CartOp.add ⟨1, 7, "10", "brick"⟩ 0] =
      [⟨⟨1, 7, "10", "brick"⟩, 0⟩] ∧
    ∃ item ∈ runOps [CartOp.add ⟨1, 7, "10", "brick"⟩ 0],
      item.quantity ≤ 0 := by
  refine ⟨by decide, ⟨⟨⟨1, 7, "10", "brick"⟩, 0⟩, by decide, by decide⟩⟩

/-- **C6, amended.** `updateQuantity(productId, q)` with `q ≤ 0` removes
the item and with `q > 0` replaces its quantity; and along every
operation sequence whose `addItem` calls all pass a positive quantity
argument, no entry of the cart ever has quantity ≤ 0. (`addItem` itself
does not validate its quantity argument, so a non-positive argument can
store a non-positive entry.) -/
theorem cart_quantity_positive_amended :
    (∀ cart productId quantity, quantity ≤ 0 →
      ∀ item ∈ updateQuantity cart productId quantity,
        item.product.id ≠ productId) ∧
    (∀ cart productId quantity, 0 < quantity →
      ∀ item ∈ updateQuantity cart productId quantity,
        item.product.id = productId → item.quantity = quantity) ∧
    (∀ ops : List CartOp, (∀ op ∈ ops, PosAddOp op) →
      PosQty (runOps ops)) := by
  refine ⟨?_, ?_, ?_⟩
  · intro cart productId quantity hq item hitem
    unfold updateQuantity at hitem
    rw [if_pos hq] at hitem
    have := List.of_mem_filter hitem
    simpa using this
  · intro cart productId quantity hq item hitem hid
    unfold updateQuantity at hitem
    rw [if_neg (by omega)] at hitem
    rcases List.mem_map.1 hitem with ⟨y, hy, rfl⟩
    by_cases hyid : y.product.id = productId
    · simp only [if_pos hyid]
    · exfalso
      rw [if_neg hyid] at hid
      exact hyid hid
  · intro ops hops
    exact posQty_foldl ops [] hops (fun x hx => absurd hx (List.not_mem_nil x))

/-- Witness for the amended C6, discharging each hypothesis at concrete
inputs. -/
theorem cart_quantity_positive_amended_witness :
    (∀ item ∈ updateQuantity [⟨⟨1, 7, "10", "brick"⟩, 2⟩] 1 0,
      item.product.id ≠ 1) ∧
    (∀ item ∈ updateQuantity [⟨⟨1, 7, "10", "brick"⟩, 2⟩] 1 5,
      item.product.id = 1 → item.quantity = 5) ∧
    PosQty (runOps [CartOp.add ⟨1, 7, "10", "brick"⟩ 2, CartOp.update 1 3]) := by
  refine ⟨?_, ?_, ?_⟩
  · exact cart_quantity_positive_amended.1 _ 1 0 (by decide)
  · exact cart_quantity_positive_amended.2.1 _ 1 5 (by decide)
  · exact cart_quantity_positive_amended.2.2 _ (by decide)

/-! ### Accumulation of addItem sequences (C7) -/

/-- The product ids of the cart entries, in order. -/
def cartIds (cart : List CartItem) : List Int :=
  cart.map (fun i => i.product.id)

/-- Total quantity stored in the cart for a given product id. -/
def entryQty (cart : List CartItem) (pid : Int) : Int :=
  ((cart.filter (fun i => i.product.id = pid)).map (fun i => i.quantity)).sum

/-- Total quantity requested by a sequence of `addItem` calls for a given
product id. -/
def callsQty (calls : List (ApiProduct × Int)) (pid : Int) : Int :=
  ((calls.filter (fun c => c.1.id = pid)).map (fun c => c.2)).sum

/-- Run a sequence of `addItem` calls (product, quantity) against a cart,
keeping only the resulting items. -/
def runAdds (cart : List CartItem) (calls : List (ApiProduct × Int)) :
    List CartItem :=
  calls.foldl (fun c call => (addItem c call.1 call.2).2) cart

lemma quantity_addMerge (product : ApiProduct) (quantity : Int)
    (item : CartItem) :
    ((if item.product.id = product.id then
        { item with quantity := item.quantity + quantity }
      else item) : CartItem).quantity =
      if item.product.id = product.id then item.quantity + quantity
      else item.quantity := by
  split <;> rfl

lemma cartIds_cons (i : CartItem) (rest : List CartItem) :
    cartIds (i :: rest) = i.product.id :: cartIds rest := rfl

lemma cartIds_map_merge (cart : List CartItem) (product : ApiProduct)
    (quantity : Int) :
    cartIds (cart.map (fun item => if item.product.id = product.id then
      { item with quantity := item.quantity + quantity } else item)) =
      cartIds cart := by
  induction cart with
  | nil => rfl
  | cons i rest ih =>
      rw [List.map_cons, cartIds_cons, cartIds_cons, ih]
      rw [congrArg ApiProduct.id (product_addMerge product quantity i)]

lemma entryQty_cons (i : CartItem) (rest : List CartItem) (pid : Int) :
    entryQty (i :: rest) pid =
      (if i.product.id = pid then i.quantity else 0) + entryQty rest pid := by
  unfold entryQty
  by_cases hid : i.product.id = pid
  · simp [List.filter_cons, hid]
  · simp [List.filter_cons, hid]

lemma entryQty_append (l1 l2 : List CartItem) (pid : Int) :
    entryQty (l1 ++ l2) pid = entryQty l1 pid + entryQty l2 pid := by
  unfold entryQty
  rw [List.filter_append, List.map_append, List.sum_append]

lemma entryQty_eq_zero_of_not_mem {cart : List CartItem} {pid : Int}
    (h : pid ∉ cartIds cart) : entryQty cart pid = 0 := by
  induction cart with
  | nil => rfl
  | cons i rest ih =>
      rw [cartIds_cons, List.mem_cons] at h
      push_neg at h
      rw [entryQty_cons, if_neg (fun he => h.1 he.symm), ih h.2, zero_add]

lemma any_id_iff (cart : List CartItem) (pid : Int) :
    cart.any (fun i => i.product.id = pid) = true ↔ pid ∈ cartIds cart := by
  simp only [List.any_eq_true, decide_eq_true_eq, cartIds, List.mem_map]

lemma map_merge_eq_self {cart : List CartItem} {product : ApiProduct}
    {quantity : Int} (h : ∀ x ∈ cart, x.product.id ≠ product.id) :
    cart.map (fun item => if item.product.id = product.id then
      { item with quantity := item.quantity + quantity } else item) = cart := by
  induction cart with
  | nil => rfl
  | cons i rest ih =>
      rw [List.map_cons, if_neg (h i (List.mem_cons_self i rest)),
        ih (fun x hx => h x (List.mem_cons_of_mem i hx))]

lemma entryQty_map_merge {cart : List CartItem} (product : ApiProduct)
    (quantity pid : Int) (hnodup : (cartIds cart).Nodup)
    (hex : product.id ∈ cartIds cart) :
    entryQty (cart.map (fun item => if item.product.id = product.id then
        { item with quantity := item.quantity + quantity } else item)) pid =
      entryQty cart pid + (if product.id = pid then quantity else 0) := by
  induction cart with
  | nil => cases hex
  | cons i rest ih =>
      rw [cartIds_cons, List.nodup_cons] at hnodup
      rw [cartIds_cons, List.mem_cons] at hex
      rw [List.map_cons, entryQty_cons, entryQty_cons,
        congrArg ApiProduct.id (product_addMerge product quantity i),
        quantity_addMerge]
      by_cases hid : i.product.id = product.id
      · have hrest : ∀ x ∈ rest, x.product.id ≠ product.id := by
          intro x hx he
          exact hnodup.1 (hid ▸ he ▸ List.mem_map.2 ⟨x, hx, rfl⟩)
        rw [map_merge_eq_self hrest, if_pos hid]
        by_cases hpid : i.product.id = pid
        · rw [if_pos hpid, if_pos (hid ▸ hpid)]
          omega
        · rw [if_neg hpid, if_neg (fun he => hpid (hid ▸ he))]
          omega
      · have hex' : product.id ∈ cartIds rest := by
          rcases hex with he | he
          · exact absurd he.symm hid
          · exact he
        rw [ih hnodup.2 hex']
        omega

lemma addItem_eq_addSameStore {cart : List CartItem} {product : ApiProduct}
    {quantity : Int} (hstore : ∀ i ∈ cart, i.product.store = product.store) :
    (addItem cart product quantity).2 = addSameStore cart product quantity := by
  rcases hc : cart.head? with _ | first
  · have hnil : cart = [] := List.head?_eq_none_iff.1 hc
    subst hnil
    rfl
  · simp only [addItem, hc]
    rw [if_neg
      (fun hne => hne (hstore first (List.mem_of_mem_head? hc)))]

lemma cartIds_addSameStore_of_mem {cart : List CartItem}
    {product : ApiProduct} {quantity : Int}
    (hex : product.id ∈ cartIds cart) :
    cartIds (addSameStore cart product quantity) = cartIds cart := by
  unfold addSameStore
  rw [if_pos ((any_id_iff cart product.id).2 hex)]
  exact cartIds_map_merge cart product quantity

lemma cartIds_addSameStore_of_not_mem {cart : List CartItem}
    {product : ApiProduct} {quantity : Int}
    (hnex : product.id ∉ cartIds cart) :
    cartIds (addSameStore cart product quantity) =
      cartIds cart ++ [product.id] := by
  unfold addSameStore
  rw [if_neg (fun ha => hnex ((any_id_iff cart product.id).1 ha))]
  unfold cartIds
  rw [List.map_append]
  rfl

lemma cartIds_nodup_addItem {cart : List CartItem} {product : ApiProduct}
    {quantity : Int} (hnodup : (cartIds cart).Nodup)
    (hstore : ∀ i ∈ cart, i.product.store = product.store) :
    (cartIds (addItem cart product quantity).2).Nodup := by
  rw [addItem_eq_addSameStore hstore]
  by_cases hex : product.id ∈ cartIds cart
  · rw [cartIds_addSameStore_of_mem hex]
    exact hnodup
  · rw [cartIds_addSameStore_of_not_mem hex]
    simp [List.nodup_append, hnodup, hex]

lemma mem_cartIds_addItem {cart : List CartItem} {product : ApiProduct}
    {quantity : Int} {pid : Int}
    (hstore : ∀ i ∈ cart, i.product.store = product.store) :
    pid ∈ cartIds (addItem cart product quantity).2 ↔
      pid ∈ cartIds cart ∨ pid = product.id := by
  rw [addItem_eq_addSameStore hstore]
  by_cases hex : product.id ∈ cartIds cart
  · rw [cartIds_addSameStore_of_mem hex]
    constructor
    · exact fun h => .inl h
    · rintro (h | rfl)
      · exact h
      · exact hex
  · rw [cartIds_addSameStore_of_not_mem hex]
    simp [List.mem_append]

lemma entryQty_addItem {cart : List CartItem} {product : ApiProduct}
    {quantity pid : Int} (hnodup : (cartIds cart).Nodup)
    (hstore : ∀ i ∈ cart, i.product.store = product.store) :
    entryQty (addItem cart product quantity).2 pid =
      entryQty cart pid + (if product.id = pid then quantity else 0) := by
  rw [addItem_eq_addSameStore hstore]
  unfold addSameStore
  by_cases hex : product.id ∈ cartIds cart
  · rw [if_pos ((any_id_iff cart product.id).2 hex)]
    exact entryQty_map_merge product quantity pid hnodup hex
  · rw [if_neg (fun ha => hex ((any_id_iff cart product.id).1 ha)),
      entryQty_append]
    congr 1
    by_cases hpid : product.id = pid
    · simp [entryQty, List.filter_cons, hpid]
    · simp [entryQty, List.filter_cons, hpid]

lemma mem_addItem {cart : List CartItem} {product : ApiProduct}
    {quantity : Int} {x : CartItem}
    (hx : x ∈ (addItem cart product quantity).2) :
    (∃ y ∈ cart, x.product = y.product) ∨ x.product = product := by
  rcases hc : cart.head? with _ | first
  · simp only [addItem, hc] at hx
    exact mem_addSameStore hx
  · simp only [addItem, hc] at hx
    split at hx
    · exact .inl ⟨x, hx, rfl⟩
    · exact mem_addSameStore hx

lemma callsQty_cons (p : ApiProduct) (q : Int)
    (rest : List (ApiProduct × Int)) (pid : Int) :
    callsQty ((p, q) :: rest) pid =
      (if p.id = pid then q else 0) + callsQty rest pid := by
  unfold callsQty
  by_cases hpid : p.id = pid
  · simp [List.filter_cons, hpid]
  · simp [List.filter_cons, hpid]

lemma entryQty_of_mem {cart : List CartItem}
    (hnodup : (cartIds cart).Nodup) {item : CartItem} (hmem : item ∈ cart) :
    entryQty cart item.product.id = item.quantity := by
  induction cart with
  | nil => cases hmem
  | cons i rest ih =>
      rw [cartIds_cons, List.nodup_cons] at hnodup
      rcases List.mem_cons.1 hmem with rfl | hmem'
      · rw [entryQty_cons, if_pos rfl,
          entryQty_eq_zero_of_not_mem hnodup.1, add_zero]
      · have hne : i.product.id ≠ item.product.id := by
          intro he
          exact hnodup.1 (he ▸ List.mem_map.2 ⟨item, hmem', rfl⟩)
        rw [entryQty_cons, if_neg hne, ih hnodup.2 hmem', zero_add]

lemma runAdds_spec (s : Int) (calls : List (ApiProduct × Int)) :
    ∀ cart : List CartItem,
      (∀ c ∈ calls, c.1.store = s) →
      (∀ i ∈ cart, i.product.store = s) →
      (cartIds cart).Nodup →
      (cartIds (runAdds cart calls)).Nodup ∧
      (∀ i ∈ runAdds cart calls, i.product.store = s) ∧
      (∀ pid, entryQty (runAdds cart calls) pid =
        entryQty cart pid + callsQty calls pid) ∧
      (∀ pid, pid ∈ cartIds (runAdds cart calls) ↔
        pid ∈ cartIds cart ∨ pid ∈ calls.map (fun c => c.1.id)) := by
  induction calls with
  | nil =>
      intro cart _ hs hnd
      refine ⟨hnd, hs, ?_, ?_⟩
      · intro pid
        show entryQty cart pid = entryQty cart pid + callsQty [] pid
        have h0 : callsQty [] pid = 0 := rfl
        omega
      · intro pid
        show pid ∈ cartIds cart ↔ pid ∈ cartIds cart ∨ pid ∈ ([] : List Int)
        simp
  | cons c rest ih =>
      intro cart hcalls hs hnd
      obtain ⟨p, q⟩ := c
      have hp : p.store = s := hcalls (p, q) (List.mem_cons_self _ _)
      have hrest : ∀ c ∈ rest, c.1.store = s :=
        fun c hc => hcalls c (List.mem_cons_of_mem _ hc)
      have hs' : ∀ i ∈ cart, i.product.store = p.store :=
        fun i hi => by rw [hs i hi, hp]
      have hrun : runAdds cart ((p, q) :: rest) =
          runAdds (addItem cart p q).2 rest := rfl
      have hnd1 := @cartIds_nodup_addItem cart p q hnd hs'
      have hst1 : ∀ i ∈ (addItem cart p q).2, i.product.store = s := by
        intro x hx
        rcases mem_addItem hx with ⟨y, hy, hxy⟩ | hxp
        · rw [hxy]; exact hs y hy
        · rw [hxp]; exact hp
      obtain ⟨H1, H2, H3, H4⟩ := ih (addItem cart p q).2 hrest hst1 hnd1
      rw [hrun]
      refine ⟨H1, H2, ?_, ?_⟩
      · intro pid
        rw [H3 pid, entryQty_addItem hnd hs', callsQty_cons]
        omega
      · intro pid
        rw [H4 pid, mem_cartIds_addItem hs', List.map_cons, List.mem_cons]
        tauto

/-- **C7.** For every finite sequence of `addItem` calls whose products
all carry the same store id, applied to the initially empty cart, the
resulting cart has exactly one entry per distinct product id (the entry
ids are exactly the ids occurring in the calls, without duplicates), and
each entry's quantity equals the sum of the quantity arguments of the
calls for that product. -/
theorem addItem_sequence_accumulates (calls : List (ApiProduct × Int))
    (s : Int) (hstore : ∀ c ∈ calls, c.1.store = s) :
    (cartIds (runAdds [] calls)).Nodup ∧
    (∀ pid, pid ∈ cartIds (runAdds [] calls) ↔
      pid ∈ calls.map (fun c => c.1.id)) ∧
    (∀ item ∈ runAdds [] calls,
      item.quantity = callsQty calls item.product.id) := by
  obtain ⟨H1, _, H3, H4⟩ := runAdds_spec s calls []
    hstore (fun i hi => absurd hi (List.not_mem_nil i)) List.nodup_nil
  refine ⟨H1, ?_, ?_⟩
  · intro pid
    rw [H4 pid]
    constructor
    · rintro (h | h)
      · cases h
      · exact h
    · exact fun h => .inr h
  · intro item hmem
    have h1 := entryQty_of_mem H1 hmem
    have h2 := H3 item.product.id
    have h0 : entryQty [] item.product.id = 0 := rfl
    omega

/-- A concrete call sequence: products 1 and 2 from store 7, adding
product 1 twice. -/
def sampleCalls : List (ApiProduct × Int) :=
  [(⟨1, 7, "10", "brick"⟩, 2), (⟨2, 7, "4", "sand"⟩, 1),
   (⟨1, 7, "10", "brick"⟩, 3)]

/-- Witness for C7 at `sampleCalls`. -/
theorem addItem_sequence_accumulates_witness :
    (cartIds (runAdds [] sampleCalls)).Nodup ∧
    (∀ pid, pid ∈ cartIds (runAdds [] sampleCalls) ↔
      pid ∈ sampleCalls.map (fun c => c.1.id)) ∧
    (∀ item ∈ runAdds [] sampleCalls,
      item.quantity = callsQty sampleCalls item.product.id) :=
  addItem_sequence_accumulates sampleCalls 7 (by decide)

/-! ### Order submission (`submitOrder` in `useCart`) -/

/-- The slice of `ApiError` that `submitOrder` can observe from
`buyerApi.createOrder`: an HTTP status and a message. -/
structure ApiErr where
  status : Nat
  message : String
deriving Repr, DecidableEq

/-- The slice of `ApiOrder` the client keeps after a successful
`createOrder` call. -/
structure ApiOrder where
  id : Int
  store : Int
deriving Repr, DecidableEq

/-- The errors `submitOrder` can throw: the two local validation throws
(`"Savat bo'sh"` for an empty cart, same-store check) and a rethrown
network error. -/
inductive SubmitError where
  | emptyCart
  | mixedStores
  | api (e : ApiErr)
deriving Repr, DecidableEq

/-- The request body built for `buyerApi.createOrder`:
`{ store, items: [{ product, quantity }] }`. -/
structure OrderRequest where
  store : Int
  items : List (Int × Int)
deriving Repr, DecidableEq

/-- The request `submitOrder` builds from a non-empty cart whose first
item is `first`. -/
def orderRequest (first : CartItem) (items : List CartItem) : OrderRequest :=
  { store := first.product.store
    items := items.map (fun item => (item.product.id, item.quantity)) }

/-- Observable outcome of one `submitOrder` call: the returned order or
thrown error, the cart items afterwards, the persisted cart copy
afterwards (`none` = key removed), and whether the create-order network
call was issued. -/
structure SubmitOutcome where
  result : Except SubmitError ApiOrder
  items : List CartItem
  storage : Option (List CartItem)
  networkCalled : Bool

/-- `submitOrder` from `useCart`, with the outcome of the
`buyerApi.createOrder` network call supplied as the oracle `net`:
empty cart and mixed-store carts throw locally before any network
traffic; otherwise the call is issued, success runs `clearCart()`
(items cleared, persisted copy removed) and failure rethrows leaving the
items untouched. -/
def submitOrder (items : List CartItem) (storage : Option (List CartItem))
    (net : OrderRequest → Except ApiErr ApiOrder) : SubmitOutcome :=
  match items with
  | [] =>
      { result := .error .emptyCart, items := items, storage := storage
        networkCalled := false }
  | first :: _ =>
      if ¬ items.all (fun item => item.product.store = first.product.store)
      then
        { result := .error .mixedStores, items := items, storage := storage
          networkCalled := false }
      else
        match net (orderRequest first items) with
        | .ok order =>
            { result := .ok order, items := clearCart, storage := none
              networkCalled := true }
        | .error e =>
            { result := .error (.api e), items := items, storage := storage
              networkCalled := true }

/-- **C3.** On a non-empty single-seller cart, `submitOrder` is atomic
with respect to the cart: if the create-order call succeeds the cart is
cleared (empty items, persisted copy erased); if the call rejects with
any error, the error is rethrown and the cart's items (hence their
order and quantities) and persisted copy are exactly as before. -/
theorem submitOrder_atomic (first : CartItem) (rest : List CartItem)
    (storage : Option (List CartItem))
    (net : OrderRequest → Except ApiErr ApiOrder)
    (hsame : ∀ i ∈ first :: rest, i.product.store = first.product.store) :
    (∀ order, net (orderRequest first (first :: rest)) = .ok order →
      submitOrder (first :: rest) storage net =
        { result := .ok order, items := [], storage := none
          networkCalled := true }) ∧
    (∀ e, net (orderRequest first (first :: rest)) = .error e →
      submitOrder (first :: rest) storage net =
        { result := .error (.api e), items := first :: rest
          storage := storage, networkCalled := true }) := by
  have hall : ((first :: rest).all
      (fun item => item.product.store = first.product.store)) = true :=
    List.all_eq_true.2 (fun i hi => decide_eq_true (hsame i hi))
  constructor
  · intro order hnet
    simp only [submitOrder]
    rw [if_neg (not_not_intro hall), hnet]
    rfl
  · intro e hnet
    simp only [submitOrder]
    rw [if_neg (not_not_intro hall), hnet]

/-- Witness for C3: a one-item cart, one run against a succeeding
oracle and one against a failing oracle. -/
theorem submitOrder_atomic_witness :
    (submitOrder [⟨⟨1, 7, "10", "brick"⟩, 2⟩] (some [⟨⟨1, 7, "10", "brick"⟩, 2⟩])
        (fun _ => .ok ⟨41, 7⟩)).items = [] ∧
    (submitOrder [⟨⟨1, 7, "10", "brick"⟩, 2⟩] (some [⟨⟨1, 7, "10", "brick"⟩, 2⟩])
        (fun _ => .error ⟨500, "server"⟩)).items =
      [⟨⟨1, 7, "10", "brick"⟩, 2⟩] := by
  constructor
  · have h := (submitOrder_atomic ⟨⟨1, 7, "10", "brick"⟩, 2⟩ []
      (some [⟨⟨1, 7, "10", "brick"⟩, 2⟩]) (fun _ => .ok ⟨41, 7⟩)
      (by decide)).1 ⟨41, 7⟩ rfl
    rw [h]
  · have h := (submitOrder_atomic ⟨⟨1, 7, "10", "brick"⟩, 2⟩ []
      (some [⟨⟨1, 7, "10", "brick"⟩, 2⟩]) (fun _ => .error ⟨500, "server"⟩)
      (by decide)).2 ⟨500, "server"⟩ rfl
    rw [h]

/-- **C9.** `submitOrder` on an empty cart throws the local
empty-cart validation error (`"Savat bo'sh"`) without issuing any
network request, and leaves the cart items and the persisted copy
unchanged. -/
theorem submitOrder_empty_cart_local (storage : Option (List CartItem))
    (net : OrderRequest → Except ApiErr ApiOrder) :
    submitOrder [] storage net =
      { result := .error .emptyCart, items := [], storage := storage
        networkCalled := false } :=
  rfl

/-- Witness for C9 at a concrete storage value and oracle. -/
theorem submitOrder_empty_cart_local_witness :
    submitOrder [] (some [⟨⟨1, 7, "10", "brick"⟩, 2⟩])
        (fun _ => .ok ⟨41, 7⟩) =
      { result := .error .emptyCart, items := []
        storage := some [⟨⟨1, 7, "10", "brick"⟩, 2⟩]
        networkCalled := false } :=
  submitOrder_empty_cart_local (some [⟨⟨1, 7, "10", "brick"⟩, 2⟩])
    (fun _ => .ok ⟨41, 7⟩)

/-! ### Auth client (`services/authClient.ts`)

Module state is the token pair (`accessToken`, `refreshToken`; the
`localStorage` mirror follows them write-for-write, so one copy models
both). The behaviour of the external endpoints during one logical
`authFetch` call is an oracle `AuthEnv`: the status of the first fetch
of the url, whether `/api/token/refresh/` answers ok, the status of the
retried fetch, the Telegram `initData` string (empty = absent), whether
`/api/telegram-auth/` answers ok, and the status of the fetch retried
after that re-login. -/

structure TokenState where
  access : Option String
  refresh : Option String
deriving Repr, DecidableEq

structure AuthEnv where
  firstStatus : Nat
  refreshOk : Bool
  newAccess : String
  retryStatus : Nat
  initData : String
  loginOk : Bool
  loginAccess : String
  loginRefresh : String
  loginRetryStatus : Nat
deriving Repr, DecidableEq

/-- `clearTokens()`: drops both tokens (memory and storage). -/
def clearTokens : TokenState := { access := none, refresh := none }

/-- `refreshAccessToken()`: throws immediately when no refresh token is
stored (JS truthiness: `null` or the empty string), otherwise posts to
the refresh endpoint; a non-ok answer runs `clearTokens()` and throws,
an ok answer stores the new access token. Returns the token produced
(`none` = the function threw), the token state afterwards, and whether
the refresh HTTP request was issued. -/
def refreshAccessToken (env : AuthEnv) (st : TokenState) :
    Option String × TokenState × Bool :=
  if st.refresh.getD "" = "" then
    (none, st, false)
  else if env.refreshOk then
    (some env.newAccess, { st with access := some env.newAccess }, true)
  else
    (none, clearTokens, true)

/-- Observable outcome of one logical `authFetch` call: the status of
the response finally returned, the token state afterwards, whether a
full re-login via `loginWithTelegram` was attempted, and how many times
the url itself was fetched. -/
structure AuthFetchOutcome where
  status : Nat
  tokens : TokenState
  loginAttempted : Bool
  fetchCount : Nat
deriving Repr, DecidableEq

/-- `authFetch(url, options)` (first attempt, `_isRetry = false`): on a
401 it awaits `refreshAccessToken()` and, when that resolves, retries
once with `_isRetry = true` — the retry's response is returned as-is.
When the refresh throws, it attempts `loginWithTelegram(initData)` if
`initData` is non-empty and retries once after a successful login; when
the login fails or no `initData` is available it runs `clearTokens()`
and returns the original 401 response. -/
def authFetch (env : AuthEnv) (st : TokenState) : AuthFetchOutcome :=
  if env.firstStatus = 401 then
    match refreshAccessToken env st with
    | (some _, st1, _) =>
        { status := env.retryStatus, tokens := st1
          loginAttempted := false, fetchCount := 2 }
    | (none, _, _) =>
        if env.initData ≠ "" then
          if env.loginOk then
            { status := env.loginRetryStatus
              tokens := { access := some env.loginAccess
                          refresh := some env.loginRefresh }
              loginAttempted := true, fetchCount := 2 }
          else
            { status := env.firstStatus, tokens := clearTokens
              loginAttempted := true, fetchCount := 1 }
        else
          { status := env.firstStatus, tokens := clearTokens
            loginAttempted := false, fetchCount := 1 }
  else
    { status := env.firstStatus, tokens := st
      loginAttempted := false, fetchCount := 1 }

/-- **C4, counterexample.** The claim says a retry that fails with an
Auth error while a fresh identity proof is available triggers a full
re-login, and otherwise the session is cleared. In the code the retry
(`_isRetry = true`) returns its 401 response as-is: with a valid
refresh (refresh succeeds) and `initData` present, a 401 on the retry
produces no re-login attempt and leaves the refreshed tokens stored. -/
theorem authFetch_retry_401_no_relogin_cex :
    authFetch
      { firstStatus := 401, refreshOk := true, newAccess := "acc2"
        retryStatus := 401, initData := "proof", loginOk := true
        loginAccess := "la", loginRefresh := "lr", loginRetryStatus := 200 }
      { access := some "acc1", refresh := some "ref1" } =
      { status := 401
        tokens := { access := some "acc2", refresh := some "ref1" }
        loginAttempted := false, fetchCount := 2 } ∧
    ({ status := 401
       tokens := { access := some "acc2", refresh := some "ref1" }
       loginAttempted := false, fetchCount := 2 } : AuthFetchOutcome).loginAttempted
        = false ∧
    ({ access := some "acc2", refresh := some "ref1" } : TokenState) ≠
      clearTokens := by
  refine ⟨by decide, by decide, by decide⟩

/-- **C4, amended.** On a 401 first response, `authFetch` refreshes and
retries exactly once, returning the retry's response as-is (a second
401 is surfaced without re-login and without clearing the session);
only when the refresh itself fails does it attempt a full re-login —
if an identity proof is available and the login succeeds it retries
once more with the login credentials, and otherwise (no proof, or the
login fails) it surfaces the original 401 and clears the stored
session. A call whose retry succeeds returns that single successful
response. -/
theorem authFetch_recovery_amended (env : AuthEnv) (st : TokenState)
    (h401 : env.firstStatus = 401) :
    (st.refresh.getD "" ≠ "" → env.refreshOk = true →
      authFetch env st =
        { status := env.retryStatus
          tokens := { st with access := some env.newAccess }
          loginAttempted := false, fetchCount := 2 }) ∧
    ((refreshAccessToken env st).1 = none →
      env.initData ≠ "" → env.loginOk = true →
      authFetch env st =
        { status := env.loginRetryStatus
          tokens := { access := some env.loginAccess
                      refresh := some env.loginRefresh }
          loginAttempted := true, fetchCount := 2 }) ∧
    ((refreshAccessToken env st).1 = none → env.initData = "" →
      authFetch env st =
        { status := 401, tokens := clearTokens
          loginAttempted := false, fetchCount := 1 }) ∧
    ((refreshAccessToken env st).1 = none → env.initData ≠ "" →
      env.loginOk = false →
      authFetch env st =
        { status := 401, tokens := clearTokens
          loginAttempted := true, fetchCount := 1 }) := by
  refine ⟨?_, ?_, ?_, ?_⟩
  · intro hrt hok
    unfold authFetch refreshAccessToken
    rw [if_pos h401, if_neg hrt, if_pos hok]
  · intro href hinit hok
    unfold authFetch
    rcases hr : refreshAccessToken env st with ⟨r, st1, issued⟩
    rw [hr] at href
    have hrn : r = none := href
    subst hrn
    rw [if_pos h401]
    show (if env.initData ≠ "" then _ else _) = _
    rw [if_pos hinit, if_pos hok]
  · intro href hinit
    unfold authFetch
    rcases hr : refreshAccessToken env st with ⟨r, st1, issued⟩
    rw [hr] at href
    have hrn : r = none := href
    subst hrn
    rw [if_pos h401]
    show (if env.initData ≠ "" then _ else _) = _
    rw [if_neg (fun h => h hinit), h401]
  · intro href hinit hnlogin
    unfold authFetch
    rcases hr : refreshAccessToken env st with ⟨r, st1, issued⟩
    rw [hr] at href
    have hrn : r = none := href
    subst hrn
    rw [if_pos h401]
    show (if env.initData ≠ "" then _ else _) = _
    rw [if_pos hinit, if_neg (by rw [hnlogin]; exact Bool.false_ne_true), h401]

/-- Witness for the amended C4, discharging the hypotheses at a
concrete environment in which the refresh succeeds and the retry
returns 200. -/
theorem authFetch_recovery_amended_witness :
    authFetch
      { firstStatus := 401, refreshOk := true, newAccess := "acc2"
        retryStatus := 200, initData := "", loginOk := false
        loginAccess := "la", loginRefresh := "lr", loginRetryStatus := 200 }
      { access := some "acc1", refresh := some "ref1" } =
      { status := 200
        tokens := { access := some "acc2", refresh := some "ref1" }
        loginAttempted := false, fetchCount := 2 } :=
  (authFetch_recovery_amended
    { firstStatus := 401, refreshOk := true, newAccess := "acc2"
      retryStatus := 200, initData := "", loginOk := false
      loginAccess := "la", loginRefresh := "lr", loginRetryStatus := 200 }
    { access := some "acc1", refresh := some "ref1" } rfl).1
    (by decide) rfl

/-- **C10.** When no refresh token is stored, `refreshAccessToken`
throws before issuing any HTTP request to the refresh endpoint and
leaves the stored tokens (in particular the access token) unchanged:
`clearTokens` is not run on this path. -/
theorem refresh_without_token_rejects_locally (env : AuthEnv)
    (st : TokenState) (h : st.refresh = none) :
    refreshAccessToken env st = (none, st, false) := by
  unfold refreshAccessToken
  rw [if_pos (by rw [h]; rfl)]

/-- Witness for C10: a state holding an access token but no refresh
token. -/
theorem refresh_without_token_rejects_locally_witness :
    refreshAccessToken
      { firstStatus := 200, refreshOk := true, newAccess := "n"
        retryStatus := 200, initData := "", loginOk := false
        loginAccess := "", loginRefresh := "", loginRetryStatus := 200 }
      { access := some "acc1", refresh := none } =
      (none, { access := some "acc1", refresh := none }, false) :=
  refresh_without_token_rejects_locally _ _ rfl

/-! ### Coalesced token refresh (`refreshPromise` in `authClient.ts`)

The runtime is single-threaded JavaScript: interleavings are sequences
of atomic steps between `await` points. The module variable
`refreshPromise` either holds the shared pending refresh operation or
is `null`. A caller that hits a 401 runs, atomically,

```
if (!refreshPromise) { refreshPromise = refreshAccessToken(); }
await refreshPromise;
```

so the step either starts a new refresh exchange and publishes its
promise, or attaches to the published one. The settle step is the
exchange completing (successfully or not); each awaiting caller then
resumes and runs `refreshPromise = null` (both the success path and the
`catch` do this). -/

structure RefreshState where
  /-- `refreshPromise`: id of the pending refresh operation, if any. -/
  activePromise : Option Nat
  /-- Number of refresh HTTP exchanges currently in flight. -/
  inFlight : Nat
  /-- Total number of refresh HTTP exchanges issued so far (also used
  as the id of the next promise). -/
  started : Nat
  /-- Which promise each caller that reached the refresh block awaits. -/
  waiters : List (Nat × Nat)
deriving Repr, DecidableEq

def initialRefreshState : RefreshState :=
  { activePromise := none, inFlight := 0, started := 0, waiters := [] }

/-- One caller's atomic trigger step (the `if (!refreshPromise)` block
followed by `await refreshPromise`). -/
def triggerRefresh (s : RefreshState) (caller : Nat) : RefreshState :=
  match s.activePromise with
  | some p => { s with waiters := s.waiters ++ [(caller, p)] }
  | none =>
      { activePromise := some s.started
        inFlight := s.inFlight + 1
        started := s.started + 1
        waiters := s.waiters ++ [(caller, s.started)] }

/-- All triggers of a window in which no settle step occurs (the claim's
hypothesis: every caller triggers before the first refresh resolves). -/
def runTriggers (callers : List Nat) : RefreshState :=
  callers.foldl triggerRefresh initialRefreshState

/-- The pending exchange settles (resolves or rejects). -/
def settleRefresh (s : RefreshState) : RefreshState :=
  { s with inFlight := s.inFlight - 1 }

/-- An awaiting caller resumes and runs `refreshPromise = null` (done on
the success path and in the `catch` alike). -/
def resumeAfterRefresh (s : RefreshState) : RefreshState :=
  { s with activePromise := none }

lemma foldl_triggerRefresh_active (callers : List Nat) :
    ∀ s : RefreshState, ∀ p, s.activePromise = some p →
      callers.foldl triggerRefresh s =
        { s with waiters := s.waiters ++ callers.map (fun c => (c, p)) } := by
  induction callers with
  | nil => intro s p hp; simp
  | cons c rest ih =>
      intro s p hp
      rw [List.foldl_cons]
      have hstep : triggerRefresh s c = { s with waiters := s.waiters ++ [(c, p)] } := by
        unfold triggerRefresh
        rw [hp]
      rw [hstep, ih _ p (by rw [hp])]
      simp

/-- **C5.** For every interleaving in which several callers trigger a
token refresh before the first refresh settles, exactly one refresh HTTP
exchange is issued; at no intermediate point is more than one exchange
in flight; every caller awaits the same shared pending operation
(promise 0); and the shared handle is cleared when an awaiting caller
resumes after completion or failure. -/
theorem refresh_coalesced (callers : List Nat) (hne : callers ≠ []) :
    (runTriggers callers).started = 1 ∧
    (runTriggers callers).inFlight = 1 ∧
    (∀ l1 l2, callers = l1 ++ l2 → (runTriggers l1).inFlight ≤ 1) ∧
    (∀ w ∈ (runTriggers callers).waiters, w.2 = 0) ∧
    (resumeAfterRefresh (settleRefresh (runTriggers callers))).activePromise
      = none := by
  rcases callers with _ | ⟨c, rest⟩
  · exact absurd rfl hne
  · have hfirst : triggerRefresh initialRefreshState c =
        { activePromise := some 0, inFlight := 1, started := 1
          waiters := [(c, 0)] } := rfl
    have hrun : runTriggers (c :: rest) =
        { activePromise := some 0, inFlight := 1, started := 1
          waiters := [(c, 0)] ++ rest.map (fun x => (x, 0)) } := by
      show List.foldl triggerRefresh (triggerRefresh initialRefreshState c)
          rest = _
      rw [hfirst, foldl_triggerRefresh_active rest _ 0 rfl]
    refine ⟨by rw [hrun], by rw [hrun], ?_, ?_, by rw [hrun]; rfl⟩
    · intro l1 l2 hsplit
      rcases l1 with _ | ⟨d, l1rest⟩
      · show (initialRefreshState).inFlight ≤ 1
        exact Nat.zero_le 1
      · have hd : d = c := by
          have := congrArg List.head? hsplit
          simp at this
          exact this.symm
        subst hd
        have : runTriggers (d :: l1rest) =
            { activePromise := some 0, inFlight := 1, started := 1
              waiters := [(d, 0)] ++ l1rest.map (fun x => (x, 0)) } := by
          show List.foldl triggerRefresh
              (triggerRefresh initialRefreshState d) l1rest = _
          rw [hfirst, foldl_triggerRefresh_active l1rest _ 0 rfl]
        rw [this]
    · intro w hw
      rw [hrun] at hw
      rcases List.mem_append.1 hw with h | h
      · rw [List.mem_singleton.1 h]
      · rcases List.mem_map.1 h with ⟨x, _, rfl⟩
        rfl

/-- Witness for C5 with three concurrent callers. -/
theorem refresh_coalesced_witness :
    (runTriggers [10, 20, 30]).started = 1 ∧
    (runTriggers [10, 20, 30]).inFlight = 1 ∧
    (∀ l1 l2, ([10, 20, 30] : List Nat) = l1 ++ l2 →
      (runTriggers l1).inFlight ≤ 1) ∧
    (∀ w ∈ (runTriggers [10, 20, 30]).waiters, w.2 = 0) ∧
    (resumeAfterRefresh (settleRefresh (runTriggers [10, 20, 30]))).activePromise
      = none :=
  refresh_coalesced [10, 20, 30] (by decide)

/-! ### Error classification (`apiFetch` in `api.ts`, 429 case)

`parseInt(header, 10)` in JavaScript skips leading whitespace, accepts
an optional sign and reads leading decimal digits; it returns `NaN`
(modelled as `none`) when no digit is read. The 429 arm of `apiFetch`
computes `retryAfterHeader ? parseInt(retryAfterHeader, 10) : 30`, so
the default 30 applies only when the header is `null` or the empty
string (both falsy). -/

/-- Decimal value of the leading digit run, `none` when there is no
leading digit. -/
def leadingDigitsVal (cs : List Char) : Option Nat :=
  match cs.takeWhile (fun c => c.isDigit) with
  | [] => none
  | ds => some (ds.foldl (fun acc c => acc * 10 + (c.toNat - '0'.toNat)) 0)

/-- JS `parseInt(s, 10)`: `none` models `NaN`. -/
def jsParseInt (s : String) : Option Int :=
  match s.toList.dropWhile (fun c => c = ' ' ∨ c = '\t' ∨ c = '\n' ∨ c = '\r') with
  | '-' :: rest => (leadingDigitsVal rest).map (fun n => -(n : Int))
  | '+' :: rest => (leadingDigitsVal rest).map (fun n => (n : Int))
  | rest => (leadingDigitsVal rest).map (fun n => (n : Int))

/-- The error kinds thrown by the `!response.ok` switch of `apiFetch`.
For `RateLimited`, `retryAfter` carries the seconds value; `none`
models the JS `NaN` produced by an unparsable header. -/
inductive ClassifiedError where
  | auth
  | forbidden
  | notFound
  | rateLimited (retryAfter : Option Int)
  | other (status : Nat)
deriving Repr, DecidableEq

/-- The status switch of `apiFetch` (the message extraction is
orthogonal to the claims and omitted): for 429,
`retryAfterHeader ? parseInt(retryAfterHeader, 10) : 30` with
`response.headers.get('retry-after')` as the header (`none` = header
absent). -/
def classifyStatus (status : Nat) (retryAfterHeader : Option String) :
    ClassifiedError :=
  match status with
  | 401 => .auth
  | 403 => .forbidden
  | 404 => .notFound
  | 429 =>
      .rateLimited
        (match retryAfterHeader with
         | none => some 30
         | some s => if s = "" then some 30 else jsParseInt s)
  | s => .other s

/-- **C8, counterexample.** The claim that `retryAfterSeconds` defaults
to 30 whenever the header is unparsable is false: for the present but
unparsable header `"abc"`, `parseInt("abc", 10)` is `NaN`, and the code
stores that `NaN`, not 30. -/
theorem retryAfter_unparsable_cex :
    classifyStatus 429 (some "abc") = .rateLimited none ∧
    classifyStatus 429 (some "abc") ≠ .rateLimited (some 30) := by
  refine ⟨by decide, by decide⟩

/-- **C8, amended.** A 429 response always classifies as `RateLimited`;
`retryAfterSeconds` is `parseInt(header, 10)` when the `Retry-After`
header is present and non-empty — which is `NaN` (no value) when the
header does not start with a parsable integer — and defaults to 30
exactly when the header is absent or the empty string. -/
theorem retryAfter_classification_amended (header : Option String) :
    (header = none → classifyStatus 429 header = .rateLimited (some 30)) ∧
    (header = some "" → classifyStatus 429 header = .rateLimited (some 30)) ∧
    (∀ s, header = some s → s ≠ "" →
      classifyStatus 429 header = .rateLimited (jsParseInt s)) := by
  refine ⟨?_, ?_, ?_⟩
  · rintro rfl; rfl
  · rintro rfl; rfl
  · rintro s rfl hs
    show ClassifiedError.rateLimited
      (if s = "" then some 30 else jsParseInt s) = _
    rw [if_neg hs]

/-- Witness for the amended C8: `Retry-After: 45` parses to 45, and the
absent header defaults to 30. -/
theorem retryAfter_classification_amended_witness :
    classifyStatus 429 (some "45") = .rateLimited (jsParseInt "45") ∧
    classifyStatus 429 none = .rateLimited (some 30) ∧
    jsParseInt "45" = some 45 :=
  ⟨(retryAfter_classification_amended (some "45")).2.2 "45" rfl (by decide),
   (retryAfter_classification_amended none).1 rfl,
   by decide⟩

end BuildGo
